import Mathlib

/-!
Verification of the ticket-hierarchy resolution and creation-ordering core of
the jira-ticket-automations repository, embedded from
`src/jira_automation/main.py` (class `JiraAutomationApp`, methods
`create_tickets` and `review_and_edit_tickets`).

The embedding models:
* the ticket record (`Ticket`) and the `index_to_ticket` dictionary;
* the `type_order` table and the stable sort of `create_tickets`;
* `is_subtask_type`, `find_parent_chain` (with explicit fuel; the fuel-freeness
  theorem below is the termination property), `find_first_non_subtask_ancestor`
  and `find_epic_ancestor`;
* the per-ticket resolution/creation step and the whole `create_tickets` run,
  with the Jira client (`creator`) and the progress UI modelled as oracles and
  the calls made to them recorded as traces;
* the delete-and-reindex step of `review_and_edit_tickets`.
-/

/-- A ticket record as produced by the analyzer and edited in review:
`{index, type, summary, description, acceptance_criteria, parent_index}`. -/
structure Ticket where
  index : Nat
  type : String
  summary : String
  description : String
  acceptance_criteria : List String
  parent_index : Option Nat
  deriving Repr, DecidableEq

/-- Python's `str.strip()` at the character-list level: drop leading and
trailing whitespace. -/
def stripChars (l : List Char) : List Char :=
  ((l.dropWhile Char.isWhitespace).reverse.dropWhile Char.isWhitespace).reverse

/-- Python's `s.strip().lower()` (ASCII case folding, which is all the code
compares against). -/
def stripLower (s : String) : String :=
  String.mk ((stripChars s.data).map Char.toLower)

/-- Python's `s.strip().lower().replace("-", "").replace(" ", "")`: since both
patterns are single characters replaced by the empty string, the two `replace`
calls remove every `'-'` and `' '`. -/
def stripLowerNoSep (s : String) : String :=
  String.mk (((stripChars s.data).map Char.toLower).filter
    (fun c => !(c == '-' || c == ' ')))

/-- The local helper `is_subtask_type` of `create_tickets`. -/
def is_subtask_type (issue_type : String) : Bool :=
  stripLowerNoSep issue_type == "subtask"

/-- The dictionary `index_to_ticket = {ticket['index']: ticket for ticket in
tickets}`: on duplicate indices the later ticket wins, hence the lookup scans
the reversed list. -/
def indexToTicket (tickets : List Ticket) (i : Nat) : Option Ticket :=
  tickets.reverse.find? (fun t => t.index == i)

/-- The table `type_order = {'Epic': 0, 'Story': 1, 'Task': 1, 'Subtask': 2,
'Sub-task': 2}` together with the default of `type_order.get(t['type'], 1)`:
an exact, case-sensitive lookup. -/
def type_order (ty : String) : Nat :=
  if ty == "Epic" then 0
  else if ty == "Story" then 1
  else if ty == "Task" then 1
  else if ty == "Subtask" then 2
  else if ty == "Sub-task" then 2
  else 1

/-- The sort key comparison of `sorted(tickets, key=lambda t:
(type_order.get(t['type'], 1), t['index']))`: lexicographic order on the pair
`(type_order(type), index)`. -/
def ticketR (a b : Ticket) : Prop :=
  type_order a.type < type_order b.type ∨
    (type_order a.type = type_order b.type ∧ a.index ≤ b.index)

instance : DecidableRel ticketR := fun a b => by
  unfold ticketR
  exact inferInstance

instance : IsTotal Ticket ticketR := by
  constructor
  intro a b
  unfold ticketR
  omega

instance : IsTrans Ticket ticketR := by
  constructor
  intro a b c hab hbc
  unfold ticketR at *
  omega

/-- Python's `sorted` is the stable sort by the key; insertion sort over the
same total preorder computes exactly that (stable sorting is a function). -/
def sortedTickets (tickets : List Ticket) : List Ticket :=
  List.insertionSort ticketR tickets

/-- One step of the parent walk: `index_to_ticket.get(current, {}).get("parent_index")`. -/
def chainStep (tickets : List Ticket) (c : Nat) : Option Nat :=
  (indexToTicket tickets c).bind (fun t => t.parent_index)

/-- The `while` loop of `find_parent_chain`, with explicit fuel standing for
the number of remaining iterations; `visited` doubles as the accumulated chain
(in the Python code `chain` and `visited` always hold the same indices, with
`chain` in visit order). The fuel-freeness theorem below shows
`tickets.length + 1` fuel always suffices, which is the termination argument
for the unbounded Python loop. -/
def findParentChainAux (tickets : List Ticket) : Nat → List Nat → Option Nat → List Nat
  | fuel + 1, visited, some c =>
    if c ∈ visited then visited.reverse
    else findParentChainAux tickets fuel (c :: visited) (chainStep tickets c)
  | _, visited, _ => visited.reverse

/-- The local helper `find_parent_chain` of `create_tickets`. -/
def find_parent_chain (tickets : List Ticket) (start_index : Nat) : List Nat :=
  findParentChainAux tickets (tickets.length + 1) [] (some start_index)

/-- The local helper `find_first_non_subtask_ancestor`: the first chain entry
that resolves to a live ticket whose type is not a subtask type. -/
def find_first_non_subtask_ancestor (tickets : List Ticket) (start_index : Nat) :
    Option Nat :=
  (find_parent_chain tickets start_index).find? (fun idx =>
    match indexToTicket tickets idx with
    | none => false
    | some t => !(is_subtask_type t.type))

/-- The local helper `find_epic_ancestor`: the first chain entry that resolves
to a live ticket with `type.strip().lower() == "epic"`. -/
def find_epic_ancestor (tickets : List Ticket) (start_index : Nat) : Option Nat :=
  (find_parent_chain tickets start_index).find? (fun idx =>
    match indexToTicket tickets idx with
    | none => false
    | some t => stripLower t.type == "epic")

/-- One invocation of the Issue Creator collaborator
(`jira_client.create_issue`). -/
structure CreateCall where
  project_key : String
  issue_type : String
  summary : String
  description : String
  parent_key : Option String
  epic_key : Option String
  deriving Repr, DecidableEq

/-- One entry of the `created_tickets` result list. -/
structure CreatedEntry where
  key : String
  type : String
  summary : String
  url : String
  original_index : Nat
  deriving Repr, DecidableEq

/-- The executor's mutable state plus the observable traces: `created` and
`errors` are the two results of `create_tickets`, `indexToKey` is the
`index_to_key` map (latest binding first), `calls` records every Issue-Creator
invocation and `progress` every `display_creation_progress` notification. -/
structure ExecState where
  created : List CreatedEntry
  errors : List String
  indexToKey : List (Nat × String)
  calls : List CreateCall
  progress : List (Nat × Nat × String)
  deriving Repr, DecidableEq

/-- Lookup in the `index_to_key` dict (`index_to_key.get(i)`): latest binding
wins because insertion prepends. -/
def lookupKey (m : List (Nat × String)) (i : Nat) : Option String :=
  (m.find? (fun p => p.1 == i)).map (fun p => p.2)

/-- Python truthiness of an optional string key: `if not key:` fires on `None`
and on the empty string. -/
def optTruthy : Option String → Bool
  | none => false
  | some s => !(s == "")

/-- The description formatting of `create_tickets`: append the acceptance
criteria as a bullet list when the list is truthy (non-empty). -/
def formatDescription (t : Ticket) : String :=
  if t.acceptance_criteria.isEmpty then t.description
  else t.acceptance_criteria.foldl (fun acc ac => acc ++ "• " ++ ac ++ "\n")
    (t.description ++ "\n\nAcceptance Criteria:\n")

/-- The remote-creation tail of the loop body: invoke the Issue Creator (the
oracle `creator`, fed with the number of calls made so far) and either record
the key and the created entry or append the failure note. -/
def doCreate (project_key : String) (creator : Nat → Option String)
    (urlOf : String → String) (st : ExecState) (t : Ticket)
    (issue_type : String) (parent_key epic_key : Option String) : ExecState :=
  let call : CreateCall :=
    ⟨project_key, issue_type, t.summary, formatDescription t, parent_key, epic_key⟩
  match creator st.calls.length with
  | some key =>
    { st with
      calls := st.calls ++ [call]
      indexToKey := (t.index, key) :: st.indexToKey
      created := st.created ++
        [⟨key, t.type, t.summary, urlOf key, t.index⟩] }
  | none =>
    { st with
      calls := st.calls ++ [call]
      errors := st.errors ++ ["Failed to create: " ++ t.summary] }

/-- One iteration of the `for ticket in sorted_tickets:` loop of
`create_tickets`: notify progress, resolve linkage, then (unless skipped)
invoke the Issue Creator. -/
def processTicket (project_key : String) (creator : Nat → Option String)
    (urlOf : String → String) (tickets : List Ticket) (total : Nat)
    (st : ExecState) (t : Ticket) : ExecState :=
  let st := { st with
    progress := st.progress ++ [(st.created.length + 1, total, t.summary)] }
  match t.parent_index with
  | none => doCreate project_key creator urlOf st t t.type none none
  | some parent_index =>
    if is_subtask_type t.type then
      match find_first_non_subtask_ancestor tickets parent_index with
      | none =>
        { st with errors := st.errors ++
            ["Skipped subtask (missing parent): " ++ t.summary] }
      | some a =>
        -- find_first_non_subtask_ancestor only returns indices of live
        -- tickets, so the `.getD ""` default is never taken.
        let parent_type := stripLower (((indexToTicket tickets a).map
          (fun pt => pt.type)).getD "")
        if parent_type == "epic" then
          let epic_key := lookupKey st.indexToKey a
          if optTruthy epic_key then
            let st := { st with errors := st.errors ++
                ["Promoted subtask to Task under Epic: " ++ t.summary] }
            doCreate project_key creator urlOf st t "Task" none epic_key
          else
            { st with errors := st.errors ++
                ["Skipped subtask (missing parent): " ++ t.summary] }
        else
          let parent_key := lookupKey st.indexToKey a
          if optTruthy parent_key then
            doCreate project_key creator urlOf st t t.type parent_key none
          else
            { st with errors := st.errors ++
                ["Skipped subtask (missing parent): " ++ t.summary] }
    else
      let epic_key :=
        match find_epic_ancestor tickets parent_index with
        | some e => lookupKey st.indexToKey e
        | none => none
      doCreate project_key creator urlOf st t t.type none epic_key

/-- The initial executor state. -/
def initState : ExecState := ⟨[], [], [], [], []⟩

/-- The whole `create_tickets(project_key, tickets)` run. -/
def create_tickets (project_key : String) (creator : Nat → Option String)
    (urlOf : String → String) (tickets : List Ticket) : ExecState :=
  (sortedTickets tickets).foldl
    (processTicket project_key creator urlOf tickets tickets.length) initState

/-- The reindexing loop of `review_and_edit_tickets` after a deletion:
`for i, ticket in enumerate(tickets): ticket['index'] = i`, started at `n`. -/
def reindexFrom (n : Nat) : List Ticket → List Ticket
  | [] => []
  | t :: rest => { t with index := n } :: reindexFrom (n + 1) rest

/-- The delete action of `review_and_edit_tickets`: `tickets.pop(idx)`
followed by the dense reindexing of the survivors. -/
def delete_and_reindex (tickets : List Ticket) (i : Nat) : List Ticket :=
  reindexFrom 0 (tickets.eraseIdx i)



/-! Definitions following the specification's words, for refinement
comparisons against the code's definitions above. -/

/-- Modelled from the spec (§4.1 TypeClassifier), for comparison with the
code's exact-match table: `normalize(label)` is case- and
separator-insensitive, recognizes the aliases of Subtask, and defaults any
unrecognized label to Task. -/
def specNormalize (label : String) : String :=
  let n := stripLowerNoSep label
  if n == "epic" then "Epic"
  else if n == "story" then "Story"
  else if n == "task" then "Task"
  else if n == "subtask" then "Subtask"
  else "Task"

/-- Modelled from the spec (§4.1): `tier(type)`: Epic=0, Story/Task=1,
Subtask=2, unrecognized 1 (via the Task default of `normalize`). -/
def specTier (label : String) : Nat :=
  if specNormalize label == "Epic" then 0
  else if specNormalize label == "Subtask" then 2
  else 1

/-- The sort relation the claim describes: lexicographic on
`(specTier(type), index)`. -/
def specTicketR (a b : Ticket) : Prop :=
  specTier a.type < specTier b.type ∨
    (specTier a.type = specTier b.type ∧ a.index ≤ b.index)

instance : DecidableRel specTicketR := fun a b => by
  unfold specTicketR
  exact inferInstance

/-- The planned order the claim describes: the stable sort by
`(specTier(type), index)`. -/
def specSortedTickets (tickets : List Ticket) : List Ticket :=
  List.insertionSort specTicketR tickets

/-- Modelled from the spec (§4.4 Remote creation): description with a trailing
bullet list holding one bullet per NON-EMPTY criterion, omitted entirely when
the criteria list is empty. -/
def specDescription (t : Ticket) : String :=
  if t.acceptance_criteria.isEmpty then t.description
  else t.description ++ "\n\nAcceptance Criteria:\n" ++
    String.join ((t.acceptance_criteria.filter (fun ac => !(ac == ""))).map
      (fun ac => "• " ++ ac ++ "\n"))

/-! Measure infrastructure for the termination proof of the parent walk. -/

/-- Every value that any ticket's `parent_index` may contribute to the walk. -/
def parentVals (tickets : List Ticket) : List Nat :=
  tickets.filterMap (fun t => t.parent_index)

/-- How many parent-index values are not yet in the visited set. -/
def remainingNew (tickets : List Ticket) (visited : List Nat) : Nat :=
  ((parentVals tickets).filter (fun x => decide (x ∉ visited))).length

/-- Fuel sufficient for the walk to reach its natural exit from a given
configuration. -/
def chainFuelNeeded (tickets : List Ticket) (visited : List Nat) :
    Option Nat → Nat
  | none => 0
  | some c =>
    if c ∈ visited then 0 else 1 + remainingNew tickets (c :: visited)

/-! Helper lemmas. -/

/-- Unfolding: a `none` current exits the loop at any fuel. -/
theorem findParentChainAux_none (tickets : List Ticket) (f : Nat) (v : List Nat) :
    findParentChainAux tickets f v none = v.reverse := by
  cases f <;> rfl

/-- Unfolding: zero fuel exits the loop. -/
theorem findParentChainAux_zero (tickets : List Ticket) (v : List Nat) (c : Option Nat) :
    findParentChainAux tickets 0 v c = v.reverse := by
  cases c <;> rfl

/-- Unfolding: the loop body. -/
theorem findParentChainAux_succ (tickets : List Ticket) (f : Nat) (v : List Nat) (c : Nat) :
    findParentChainAux tickets (f + 1) v (some c) =
      if c ∈ v then v.reverse
      else findParentChainAux tickets f (c :: v) (chainStep tickets c) := rfl

/-- Every index the walk can move to is the parent_index of some ticket. -/
theorem chainStep_mem_parentVals {tickets : List Ticket} {c p : Nat}
    (h : chainStep tickets c = some p) : p ∈ parentVals tickets := by
  unfold chainStep at h
  cases hit : indexToTicket tickets c with
  | none => rw [hit] at h; cases h
  | some t =>
    rw [hit] at h
    have ht : t ∈ tickets := by
      have := List.mem_of_find?_eq_some hit
      exact List.mem_reverse.mp this
    exact List.mem_filterMap.mpr ⟨t, ht, h⟩


/-- Unfolding: no fuel is needed once the current index is gone. -/
theorem chainFuelNeeded_none (tickets : List Ticket) (v : List Nat) :
    chainFuelNeeded tickets v none = 0 := rfl

/-- Unfolding: the fuel needed at a live current index. -/
theorem chainFuelNeeded_some (tickets : List Ticket) (v : List Nat) (c : Nat) :
    chainFuelNeeded tickets v (some c) =
      if c ∈ v then 0 else 1 + remainingNew tickets (c :: v) := rfl

/-- Removing the occurrences of a present element strictly shrinks a list. -/
theorem length_filter_ne_lt {p : Nat} :
    ∀ {M : List Nat}, p ∈ M →
      (M.filter (fun x => decide (x ≠ p))).length < M.length := by
  intro M h
  induction M with
  | nil => cases h
  | cons a M ih =>
    rw [List.filter_cons]
    by_cases hap : a = p
    · subst hap
      rw [if_neg (by simp)]
      exact Nat.lt_succ_of_le (List.length_filter_le _ _)
    · have hp : p ∈ M := by
        rcases List.mem_cons.mp h with h' | h'
        · exact absurd h'.symm hap
        · exact h'
      rw [if_pos (by simp [hap])]
      rw [List.length_cons, List.length_cons]
      exact Nat.succ_lt_succ (ih hp)

/-- Visiting a reachable, not-yet-visited index strictly shrinks the pool of
indices the walk can still add. -/
theorem remainingNew_cons_lt {tickets : List Ticket} {v : List Nat} {p : Nat}
    (hp : p ∈ parentVals tickets) (hnv : p ∉ v) :
    remainingNew tickets (p :: v) < remainingNew tickets v := by
  unfold remainingNew
  have hpred : (fun x => decide (x ∉ p :: v)) =
      (fun x => decide (x ≠ p) && decide (x ∉ v)) := by
    funext x
    by_cases h1 : x = p
    · subst h1; simp
    · by_cases h2 : x ∈ v <;> simp [h1, h2]
  rw [hpred, ← List.filter_filter]
  apply length_filter_ne_lt
  rw [List.mem_filter]
  exact ⟨hp, by simpa using hnv⟩

/-- After one loop iteration the fuel needed is at most the size of the pool
before the iteration. -/
theorem chainFuelNeeded_chainStep_le (tickets : List Ticket) (v : List Nat) (c : Nat) :
    chainFuelNeeded tickets (c :: v) (chainStep tickets c) ≤
      remainingNew tickets (c :: v) := by
  cases hs : chainStep tickets c with
  | none => rw [chainFuelNeeded_none]; exact Nat.zero_le _
  | some p =>
    rw [chainFuelNeeded_some]
    by_cases hcv : p ∈ c :: v
    · rw [if_pos hcv]; exact Nat.zero_le _
    · rw [if_neg hcv]
      have hlt := remainingNew_cons_lt (chainStep_mem_parentVals hs) hcv
      omega

/-- One-step fuel stability: beyond the needed fuel, one more unit does not
change the result of the walk. -/
theorem findParentChainAux_stable (tickets : List Ticket) :
    ∀ (f : Nat) (v : List Nat) (c : Option Nat),
      chainFuelNeeded tickets v c ≤ f →
      findParentChainAux tickets (f + 1) v c = findParentChainAux tickets f v c := by
  intro f
  induction f with
  | zero =>
    intro v c hf
    cases c with
    | none => simp only [findParentChainAux_none]
    | some c =>
      simp only [findParentChainAux_succ, findParentChainAux_zero]
      rw [chainFuelNeeded_some] at hf
      by_cases hc : c ∈ v
      · rw [if_pos hc]
      · rw [if_neg hc] at hf
        exact absurd hf (by omega)
  | succ f ih =>
    intro v c hf
    cases c with
    | none => simp only [findParentChainAux_none]
    | some c =>
      simp only [findParentChainAux_succ]
      by_cases hc : c ∈ v
      · rw [if_pos hc, if_pos hc]
      · rw [if_neg hc, if_neg hc]
        apply ih
        rw [chainFuelNeeded_some, if_neg hc] at hf
        have := chainFuelNeeded_chainStep_le tickets v c
        omega

/-- Fuel stability: any two sufficient fuels give the same walk. -/
theorem findParentChainAux_congr (tickets : List Ticket) (v : List Nat)
    (c : Option Nat) :
    ∀ (f g : Nat), chainFuelNeeded tickets v c ≤ f →
      chainFuelNeeded tickets v c ≤ g →
      findParentChainAux tickets f v c = findParentChainAux tickets g v c := by
  have key : ∀ (k f : Nat), chainFuelNeeded tickets v c ≤ f →
      findParentChainAux tickets (f + k) v c = findParentChainAux tickets f v c := by
    intro k
    induction k with
    | zero => intro f _; rfl
    | succ k ih =>
      intro f hf
      have h1 : f + (k + 1) = (f + k) + 1 := by omega
      rw [h1, findParentChainAux_stable tickets (f + k) v c (by omega), ih f hf]
  intro f g hf hg
  rcases Nat.le_total f g with h | h
  · have hfg : g = f + (g - f) := by omega
    rw [hfg, key (g - f) f hf]
  · have hgf : f = g + (f - g) := by omega
    rw [hgf, key (f - g) g hg]

/-- The walk never records an index twice (the `visited` guard). -/
theorem findParentChainAux_nodup (tickets : List Ticket) :
    ∀ (f : Nat) (v : List Nat) (c : Option Nat), v.Nodup →
      (findParentChainAux tickets f v c).Nodup := by
  intro f
  induction f with
  | zero =>
    intro v c hv
    rw [findParentChainAux_zero]
    exact List.nodup_reverse.mpr hv
  | succ f ih =>
    intro v c hv
    cases c with
    | none =>
      rw [findParentChainAux_none]
      exact List.nodup_reverse.mpr hv
    | some c =>
      rw [findParentChainAux_succ]
      by_cases hc : c ∈ v
      · rw [if_pos hc]
        exact List.nodup_reverse.mpr hv
      · rw [if_neg hc]
        exact ih (c :: v) (chainStep tickets c) (List.Nodup.cons hc hv)

/-- The walk visits at most `visited + needed-fuel` many indices. -/
theorem findParentChainAux_length_le (tickets : List Ticket) :
    ∀ (f : Nat) (v : List Nat) (c : Option Nat),
      (findParentChainAux tickets f v c).length ≤
        v.length + chainFuelNeeded tickets v c := by
  intro f
  induction f with
  | zero =>
    intro v c
    rw [findParentChainAux_zero, List.length_reverse]
    exact Nat.le_add_right _ _
  | succ f ih =>
    intro v c
    cases c with
    | none =>
      rw [findParentChainAux_none, List.length_reverse]
      exact Nat.le_add_right _ _
    | some c =>
      rw [findParentChainAux_succ]
      by_cases hc : c ∈ v
      · rw [if_pos hc, List.length_reverse]
        exact Nat.le_add_right _ _
      · rw [if_neg hc]
        have h1 := ih (c :: v) (chainStep tickets c)
        have h2 := chainFuelNeeded_chainStep_le tickets v c
        rw [chainFuelNeeded_some, if_neg hc]
        simp only [List.length_cons] at h1
        omega

/-- The pool of parent-index values is no larger than the batch. -/
theorem remainingNew_le (tickets : List Ticket) (v : List Nat) :
    remainingNew tickets v ≤ tickets.length := by
  unfold remainingNew
  calc ((parentVals tickets).filter _).length
      ≤ (parentVals tickets).length := List.length_filter_le _ _
    _ ≤ tickets.length := List.length_filterMap_le _ _

/-- Stability of the planner sort: any key-homogeneous selection (one whose
selected tickets are already pairwise ordered) is untouched by the sort. -/
theorem filter_sortedTickets (tickets : List Ticket) (p : Ticket → Bool)
    (h : (tickets.filter p).Pairwise ticketR) :
    (sortedTickets tickets).filter p = tickets.filter p := by
  unfold sortedTickets
  have hsub : List.Sublist (tickets.filter p) (List.insertionSort ticketR tickets) :=
    List.sublist_insertionSort h (List.filter_sublist tickets)
  have hself : (tickets.filter p).filter p = tickets.filter p :=
    List.filter_eq_self.mpr (fun a ha => (List.mem_filter.mp ha).2)
  have h2 : List.Sublist (tickets.filter p)
      ((List.insertionSort ticketR tickets).filter p) := by
    have h3 := hsub.filter p
    rwa [hself] at h3
  have hperm : List.Perm ((List.insertionSort ticketR tickets).filter p)
      (tickets.filter p) :=
    (List.perm_insertionSort ticketR tickets).filter p
  exact (h2.eq_of_length hperm.length_eq.symm).symm

/-- Folding string append factors over its initial value. -/
theorem strfoldl_init (xs : List String) :
    ∀ s : String, xs.foldl (fun a b => a ++ b) s =
      s ++ xs.foldl (fun a b => a ++ b) "" := by
  induction xs with
  | nil => intro s; exact (String.append_empty s).symm
  | cons a xs ih =>
    intro s
    show xs.foldl _ (s ++ a) = s ++ xs.foldl _ ("" ++ a)
    rw [ih (s ++ a), String.empty_append, ih a, String.append_assoc]

/-- String.join distributes over cons. -/
theorem strJoin_cons (x : String) (xs : List String) :
    String.join (x :: xs) = x ++ String.join xs := by
  show xs.foldl _ ("" ++ x) = x ++ xs.foldl _ ""
  rw [String.empty_append, strfoldl_init xs x]

/-- The bullet-appending fold of `create_tickets` in closed form: one bullet
per criterion, empty criteria included. -/
theorem foldl_bullets (l : List String) :
    ∀ s : String, l.foldl (fun acc ac => acc ++ "• " ++ ac ++ "\n") s =
      s ++ String.join (l.map (fun ac => "• " ++ ac ++ "\n")) := by
  induction l with
  | nil => intro s; exact (String.append_empty s).symm
  | cons a l ih =>
    intro s
    show l.foldl _ (s ++ "• " ++ a ++ "\n") = _
    rw [ih, List.map_cons, strJoin_cons]
    simp only [String.append_assoc]

/-- The formatted description in closed form. -/
theorem formatDescription_eq (t : Ticket) :
    formatDescription t = t.description ++
      (if t.acceptance_criteria.isEmpty then "" else
        "\n\nAcceptance Criteria:\n" ++
          String.join (t.acceptance_criteria.map (fun ac => "• " ++ ac ++ "\n"))) := by
  unfold formatDescription
  by_cases h : t.acceptance_criteria.isEmpty
  · rw [if_pos h, if_pos h, String.append_empty]
  · rw [if_neg h, if_neg h, foldl_bullets]
    simp only [String.append_assoc]

/-- Reindexing assigns consecutive indices. -/
theorem reindexFrom_map_index (l : List Ticket) :
    ∀ n : Nat, (reindexFrom n l).map (fun t => t.index) = List.range' n l.length := by
  induction l with
  | nil => intro n; rfl
  | cons t rest ih =>
    intro n
    show n :: (reindexFrom (n + 1) rest).map _ = _
    rw [ih (n + 1), List.length_cons, List.range'_succ]

/-- Reindexing changes nothing but the index field. -/
theorem reindexFrom_strip (l : List Ticket) :
    ∀ n : Nat, (reindexFrom n l).map (fun t => { t with index := 0 }) =
      l.map (fun t => { t with index := 0 }) := by
  induction l with
  | nil => intro n; rfl
  | cons t rest ih =>
    intro n
    show ({ t with index := 0 } : Ticket) :: (reindexFrom (n + 1) rest).map _ = _
    rw [ih (n + 1)]
    rfl

/-- Index lookup in a reindexed list: exactly the in-range positions resolve,
to the reindexed ticket at the corresponding offset. -/
theorem indexToTicket_reindexFrom (l : List Ticket) :
    ∀ (n j : Nat), indexToTicket (reindexFrom n l) j =
      if n ≤ j ∧ j < n + l.length then
        (l.get? (j - n)).map (fun t => { t with index := j })
      else none := by
  induction l with
  | nil =>
    intro n j
    rw [if_neg (by simp)]
    rfl
  | cons t rest ih =>
    intro n j
    have hstep : indexToTicket (reindexFrom n (t :: rest)) j =
        (indexToTicket (reindexFrom (n + 1) rest) j).or
          (List.find? (fun x => x.index == j) [({ t with index := n } : Ticket)]) := by
      show ((({ t with index := n } : Ticket) ::
        reindexFrom (n + 1) rest).reverse.find? (fun x => x.index == j)) = _
      rw [List.reverse_cons, List.find?_append]
      rfl
    rw [hstep, ih (n + 1) j]
    simp only [List.length_cons]
    by_cases h1 : n + 1 ≤ j ∧ j < n + 1 + rest.length
    · rw [if_pos h1]
      have hlt : j - (n + 1) < rest.length := by omega
      rw [List.get?_eq_get hlt, Option.map_some', Option.or_some]
      rw [if_pos (by omega : n ≤ j ∧ j < n + (rest.length + 1))]
      have hj : j - n = (j - (n + 1)) + 1 := by omega
      rw [hj, List.get?_cons_succ, List.get?_eq_get hlt, Option.map_some']
    · rw [if_neg h1, Option.none_or]
      by_cases h2 : j = n
      · rw [List.find?_cons_of_pos _ (by simp [h2])]
        rw [if_pos (by omega : n ≤ j ∧ j < n + (rest.length + 1))]
        have h0 : j - n = 0 := by omega
        rw [h0, List.get?_cons_zero, Option.map_some', h2]
      · rw [List.find?_cons_of_neg _ (by simp; omega), List.find?_nil]
        rw [if_neg (by omega)]

/-- The remote-creation step never touches the progress trace. -/
theorem doCreate_progress (project_key : String) (creator : Nat → Option String)
    (urlOf : String → String) (st : ExecState) (t : Ticket)
    (issue_type : String) (parent_key epic_key : Option String) :
    (doCreate project_key creator urlOf st t issue_type parent_key epic_key).progress =
      st.progress := by
  unfold doCreate
  cases creator st.calls.length <;> rfl

/-- The remote-creation step appends exactly one Issue-Creator call. -/
theorem doCreate_calls (project_key : String) (creator : Nat → Option String)
    (urlOf : String → String) (st : ExecState) (t : Ticket)
    (issue_type : String) (parent_key epic_key : Option String) :
    (doCreate project_key creator urlOf st t issue_type parent_key epic_key).calls =
      st.calls ++ [⟨project_key, issue_type, t.summary, formatDescription t,
        parent_key, epic_key⟩] := by
  unfold doCreate
  cases creator st.calls.length <;> rfl

/-- The remote-creation step appends a note exactly on failure. -/
theorem doCreate_errors (project_key : String) (creator : Nat → Option String)
    (urlOf : String → String) (st : ExecState) (t : Ticket)
    (issue_type : String) (parent_key epic_key : Option String) :
    (doCreate project_key creator urlOf st t issue_type parent_key epic_key).errors =
      st.errors ++ (match creator st.calls.length with
        | some _ => []
        | none => ["Failed to create: " ++ t.summary]) := by
  unfold doCreate
  cases creator st.calls.length with
  | none => rfl
  | some k => exact (List.append_nil _).symm

/-- A created entry added by the remote-creation step carries the ticket's
own type, summary and original index. -/
theorem doCreate_created_mem (project_key : String) (creator : Nat → Option String)
    (urlOf : String → String) (st : ExecState) (t : Ticket)
    (issue_type : String) (parent_key epic_key : Option String) (e : CreatedEntry)
    (h : e ∈ (doCreate project_key creator urlOf st t issue_type
      parent_key epic_key).created) :
    e ∈ st.created ∨
      (e.type = t.type ∧ e.summary = t.summary ∧ e.original_index = t.index) := by
  unfold doCreate at h
  cases hc : creator st.calls.length with
  | none =>
    rw [hc] at h
    exact Or.inl h
  | some k =>
    rw [hc] at h
    rcases List.mem_append.mp h with h' | h'
    · exact Or.inl h'
    · right
      rcases List.mem_singleton.mp h' with rfl
      exact ⟨rfl, rfl, rfl⟩

/-- Failure of the Issue Creator: one failure note, no key recorded, created
list untouched (the surrounding fold then simply continues). -/
theorem doCreate_failure (project_key : String) (creator : Nat → Option String)
    (urlOf : String → String) (st : ExecState) (t : Ticket)
    (issue_type : String) (parent_key epic_key : Option String)
    (h : creator st.calls.length = none) :
    doCreate project_key creator urlOf st t issue_type parent_key epic_key =
      { st with
        calls := st.calls ++ [⟨project_key, issue_type, t.summary,
          formatDescription t, parent_key, epic_key⟩],
        errors := st.errors ++ ["Failed to create: " ++ t.summary] } := by
  unfold doCreate
  rw [h]

/-- Every loop iteration notifies progress exactly once, with the current
created count plus one, the batch total, and the ticket's summary. -/
theorem processTicket_progress (project_key : String) (creator : Nat → Option String)
    (urlOf : String → String) (tickets : List Ticket) (total : Nat)
    (st : ExecState) (t : Ticket) :
    (processTicket project_key creator urlOf tickets total st t).progress =
      st.progress ++ [(st.created.length + 1, total, t.summary)] := by
  unfold processTicket
  cases hpi : t.parent_index with
  | none => rw [doCreate_progress]
  | some p =>
    dsimp only
    by_cases hsub : is_subtask_type t.type
    · rw [if_pos hsub]
      cases hfind : find_first_non_subtask_ancestor tickets p with
      | none => rfl
      | some a =>
        dsimp only
        by_cases hepic : (stripLower (((indexToTicket tickets a).map
            (fun pt => pt.type)).getD "") == "epic") = true
        · rw [if_pos hepic]
          by_cases htr : optTruthy (lookupKey st.indexToKey a) = true
          · rw [if_pos htr, doCreate_progress]
          · rw [if_neg htr]
        · rw [if_neg hepic]
          by_cases htr : optTruthy (lookupKey st.indexToKey a) = true
          · rw [if_pos htr, doCreate_progress]
          · rw [if_neg htr]
    · rw [if_neg hsub, doCreate_progress]

/-- A Subtask with a present parent_index whose non-subtask ancestor lookup
fails is skipped: one note, no call, no key, no created entry. -/
theorem processTicket_skip_missing (project_key : String)
    (creator : Nat → Option String) (urlOf : String → String)
    (tickets : List Ticket) (total : Nat) (st : ExecState) (t : Ticket) (p : Nat)
    (hsub : is_subtask_type t.type = true) (hpi : t.parent_index = some p)
    (hfind : find_first_non_subtask_ancestor tickets p = none) :
    processTicket project_key creator urlOf tickets total st t =
      { st with
        progress := st.progress ++ [(st.created.length + 1, total, t.summary)],
        errors := st.errors ++ ["Skipped subtask (missing parent): " ++ t.summary] } := by
  unfold processTicket
  rw [hpi]
  dsimp only
  rw [if_pos hsub, hfind]

/-- A Subtask whose resolved ancestor has no recorded key (no entry in the
index→key map) is skipped, whether that ancestor is an epic or not. -/
theorem processTicket_skip_nokey (project_key : String)
    (creator : Nat → Option String) (urlOf : String → String)
    (tickets : List Ticket) (total : Nat) (st : ExecState) (t : Ticket) (p a : Nat)
    (hsub : is_subtask_type t.type = true) (hpi : t.parent_index = some p)
    (hfind : find_first_non_subtask_ancestor tickets p = some a)
    (hlook : lookupKey st.indexToKey a = none) :
    processTicket project_key creator urlOf tickets total st t =
      { st with
        progress := st.progress ++ [(st.created.length + 1, total, t.summary)],
        errors := st.errors ++ ["Skipped subtask (missing parent): " ++ t.summary] } := by
  unfold processTicket
  rw [hpi]
  dsimp only
  rw [if_pos hsub, hfind]
  dsimp only
  rw [hlook]
  by_cases hepic : (stripLower (((indexToTicket tickets a).map
      (fun pt => pt.type)).getD "") == "epic") = true
  · rw [if_pos hepic, if_neg (by simp [optTruthy])]
  · rw [if_neg hepic, if_neg (by simp [optTruthy])]

/-- The promotion branch: a Subtask under an already-created epic ancestor is
sent as a Task with the epic link, after the promotion note is appended. -/
theorem processTicket_promote (project_key : String)
    (creator : Nat → Option String) (urlOf : String → String)
    (tickets : List Ticket) (total : Nat) (st : ExecState) (t : Ticket)
    (p a : Nat) (pt : Ticket) (k : String)
    (hsub : is_subtask_type t.type = true) (hpi : t.parent_index = some p)
    (hfind : find_first_non_subtask_ancestor tickets p = some a)
    (hpt : indexToTicket tickets a = some pt)
    (hepic : stripLower pt.type = "epic")
    (hlook : lookupKey st.indexToKey a = some k) (hk : k ≠ "") :
    processTicket project_key creator urlOf tickets total st t =
      doCreate project_key creator urlOf
        { st with
          progress := st.progress ++ [(st.created.length + 1, total, t.summary)],
          errors := st.errors ++ ["Promoted subtask to Task under Epic: " ++ t.summary] }
        t "Task" none (some k) := by
  unfold processTicket
  rw [hpi]
  dsimp only
  rw [if_pos hsub, hfind]
  dsimp only
  rw [hpt]
  rw [if_pos (by simp [hepic]), hlook, if_pos (by simp [optTruthy, hk])]

/-- A non-subtask ticket always reaches the Issue Creator, with parent_key
unset and the epic key given by the nearest epic ancestor's recorded key. -/
theorem processTicket_nonsubtask_call (project_key : String)
    (creator : Nat → Option String) (urlOf : String → String)
    (tickets : List Ticket) (total : Nat) (st : ExecState) (t : Ticket)
    (hsub : is_subtask_type t.type = false) :
    (processTicket project_key creator urlOf tickets total st t).calls =
      st.calls ++ [⟨project_key, t.type, t.summary, formatDescription t, none,
        (match t.parent_index with
         | none => none
         | some p =>
           (match find_epic_ancestor tickets p with
            | some e => lookupKey st.indexToKey e
            | none => none))⟩] := by
  unfold processTicket
  cases hpi : t.parent_index with
  | none =>
    dsimp only
    rw [doCreate_calls]
  | some p =>
    dsimp only
    rw [if_neg (by simp [hsub]), doCreate_calls]

/-- Any call appended by a loop iteration carries the formatted description of
that iteration's ticket. -/
theorem processTicket_calls_mem (project_key : String)
    (creator : Nat → Option String) (urlOf : String → String)
    (tickets : List Ticket) (total : Nat) (st : ExecState) (t : Ticket)
    (c : CreateCall)
    (hc : c ∈ (processTicket project_key creator urlOf tickets total st t).calls) :
    c ∈ st.calls ∨ c.description = formatDescription t := by
  unfold processTicket at hc
  cases hpi : t.parent_index with
  | none =>
    rw [hpi] at hc
    dsimp only at hc
    rw [doCreate_calls] at hc
    rcases List.mem_append.mp hc with h | h
    · exact Or.inl h
    · rcases List.mem_singleton.mp h with rfl
      exact Or.inr rfl
  | some p =>
    rw [hpi] at hc
    dsimp only at hc
    by_cases hsub : is_subtask_type t.type
    · rw [if_pos hsub] at hc
      cases hfind : find_first_non_subtask_ancestor tickets p with
      | none =>
        rw [hfind] at hc
        exact Or.inl hc
      | some a =>
        rw [hfind] at hc
        dsimp only at hc
        by_cases hepic : (stripLower (((indexToTicket tickets a).map
            (fun pt => pt.type)).getD "") == "epic") = true
        · rw [if_pos hepic] at hc
          by_cases htr : optTruthy (lookupKey st.indexToKey a) = true
          · rw [if_pos htr, doCreate_calls] at hc
            rcases List.mem_append.mp hc with h | h
            · exact Or.inl h
            · rcases List.mem_singleton.mp h with rfl
              exact Or.inr rfl
          · rw [if_neg htr] at hc
            exact Or.inl hc
        · rw [if_neg hepic] at hc
          by_cases htr : optTruthy (lookupKey st.indexToKey a) = true
          · rw [if_pos htr, doCreate_calls] at hc
            rcases List.mem_append.mp hc with h | h
            · exact Or.inl h
            · rcases List.mem_singleton.mp h with rfl
              exact Or.inr rfl
          · rw [if_neg htr] at hc
            exact Or.inl hc
    · rw [if_neg hsub, doCreate_calls] at hc
      rcases List.mem_append.mp hc with h | h
      · exact Or.inl h
      · rcases List.mem_singleton.mp h with rfl
        exact Or.inr rfl

/-- Any created entry appended by a loop iteration records the ticket's
ORIGINAL type, summary and index. -/
theorem processTicket_created_mem (project_key : String)
    (creator : Nat → Option String) (urlOf : String → String)
    (tickets : List Ticket) (total : Nat) (st : ExecState) (t : Ticket)
    (e : CreatedEntry)
    (he : e ∈ (processTicket project_key creator urlOf tickets total st t).created) :
    e ∈ st.created ∨
      (e.type = t.type ∧ e.summary = t.summary ∧ e.original_index = t.index) := by
  unfold processTicket at he
  cases hpi : t.parent_index with
  | none =>
    rw [hpi] at he
    dsimp only at he
    have h2 := doCreate_created_mem _ _ _ _ _ _ _ _ _ he
    exact h2
  | some p =>
    rw [hpi] at he
    dsimp only at he
    by_cases hsub : is_subtask_type t.type
    · rw [if_pos hsub] at he
      cases hfind : find_first_non_subtask_ancestor tickets p with
      | none =>
        rw [hfind] at he
        exact Or.inl he
      | some a =>
        rw [hfind] at he
        dsimp only at he
        by_cases hepic : (stripLower (((indexToTicket tickets a).map
            (fun pt => pt.type)).getD "") == "epic") = true
        · rw [if_pos hepic] at he
          by_cases htr : optTruthy (lookupKey st.indexToKey a) = true
          · rw [if_pos htr] at he
            have h2 := doCreate_created_mem _ _ _ _ _ _ _ _ _ he
            exact h2
          · rw [if_neg htr] at he
            exact Or.inl he
        · rw [if_neg hepic] at he
          by_cases htr : optTruthy (lookupKey st.indexToKey a) = true
          · rw [if_pos htr] at he
            have h2 := doCreate_created_mem _ _ _ _ _ _ _ _ _ he
            exact h2
          · rw [if_neg htr] at he
            exact Or.inl he
    · rw [if_neg hsub] at he
      have h2 := doCreate_created_mem _ _ _ _ _ _ _ _ _ he
      exact h2

/-- Over any run prefix the progress trace grows by one entry per ticket. -/
theorem foldl_processTicket_progress_length (project_key : String)
    (creator : Nat → Option String) (urlOf : String → String)
    (tickets : List Ticket) (total : Nat) :
    ∀ (l : List Ticket) (st : ExecState),
      ((l.foldl (processTicket project_key creator urlOf tickets total)
        st).progress).length = st.progress.length + l.length := by
  intro l
  induction l with
  | nil => intro st; simp
  | cons t l ih =>
    intro st
    rw [List.foldl_cons, ih, processTicket_progress]
    simp only [List.length_append, List.length_cons, List.length_nil]
    omega

/-- Over any run prefix the progress trace reports the batch total and the
tickets' summaries in order. -/
theorem foldl_processTicket_progress_shape (project_key : String)
    (creator : Nat → Option String) (urlOf : String → String)
    (tickets : List Ticket) (total : Nat) :
    ∀ (l : List Ticket) (st : ExecState),
      ((l.foldl (processTicket project_key creator urlOf tickets total)
          st).progress).map (fun x => (x.2.1, x.2.2)) =
        st.progress.map (fun x => (x.2.1, x.2.2)) ++
          l.map (fun t => (total, t.summary)) := by
  intro l
  induction l with
  | nil => intro st; simp
  | cons t l ih =>
    intro st
    rw [List.foldl_cons, ih, processTicket_progress]
    simp

/-! Claim theorems. -/

/-- Claim C1, counterexample: a Subtask with ABSENT parent_index is not
skipped — the executor appends no note and makes one remote call (the claim
predicted Skipped with a note and no call for the absent-parent_index case). -/
theorem C1_counterexample :
    (create_tickets "KAN" (fun _ => some "K1") (fun k => k)
      [⟨0, "Subtask", "S", "", [], none⟩]).errors = [] ∧
    (create_tickets "KAN" (fun _ => some "K1") (fun k => k)
      [⟨0, "Subtask", "S", "", [], none⟩]).calls.length = 1 := by
  decide

/-- Claim C1, amended: for a ticket of subtask type whose parent_index is
PRESENT, if the first non-subtask ancestor from that parent_index is none
(dangling, all-subtask or cyclic chain), the executor appends exactly the note
"Skipped subtask (missing parent): summary" and changes nothing else: no
Issue-Creator call, no key, no created entry. -/
theorem C1_amended (project_key : String) (creator : Nat → Option String)
    (urlOf : String → String) (tickets : List Ticket) (total : Nat)
    (st : ExecState) (t : Ticket) (p : Nat)
    (hsub : is_subtask_type t.type = true) (hpi : t.parent_index = some p)
    (hfind : find_first_non_subtask_ancestor tickets p = none) :
    processTicket project_key creator urlOf tickets total st t =
      { st with
        progress := st.progress ++ [(st.created.length + 1, total, t.summary)],
        errors := st.errors ++ ["Skipped subtask (missing parent): " ++ t.summary] } :=
  processTicket_skip_missing project_key creator urlOf tickets total st t p
    hsub hpi hfind

/-- Claim C1, witness: the amended theorem applied to the dangling-parent
Subtask of the spec's Scenario B. -/
theorem C1_witness :
    processTicket "KAN" (fun _ => some "K") (fun k => k)
        [⟨0, "Subtask", "Subtask A", "", [], some 99⟩] 1 initState
        ⟨0, "Subtask", "Subtask A", "", [], some 99⟩ =
      { initState with
        progress := [(1, 1, "Subtask A")],
        errors := ["Skipped subtask (missing parent): Subtask A"] } :=
  C1_amended "KAN" (fun _ => some "K") (fun k => k)
    [⟨0, "Subtask", "Subtask A", "", [], some 99⟩] 1 initState
    ⟨0, "Subtask", "Subtask A", "", [], some 99⟩ 99 (by decide) rfl (by decide)

/-- Claim C2, counterexample: the code sorts by the EXACT type string, not by
the normalized type: with a batch [Task "T", "epic" "E"] the code's planned
order keeps "T" first, while the claim's normalized-tier sort would put "E"
first; in particular a ticket labelled "epic" receives tier 1, not 0. -/
theorem C2_counterexample :
    sortedTickets [⟨0, "Task", "T", "", [], none⟩, ⟨1, "epic", "E", "", [], none⟩] ≠
      specSortedTickets [⟨0, "Task", "T", "", [], none⟩, ⟨1, "epic", "E", "", [], none⟩] ∧
    (sortedTickets [⟨0, "Task", "T", "", [], none⟩,
      ⟨1, "epic", "E", "", [], none⟩]).map (fun t => t.summary) = ["T", "E"] ∧
    (specSortedTickets [⟨0, "Task", "T", "", [], none⟩,
      ⟨1, "epic", "E", "", [], none⟩]).map (fun t => t.summary) = ["E", "T"] ∧
    type_order "epic" = 1 ∧ specTier "epic" = 0 := by
  decide

/-- Claim C2, amended: the planned order is the stable sort of the batch by
the pair (type_order(type), index) ascending, where type_order is the exact
case-sensitive table Epic=0, Story/Task=1, Subtask/Sub-task=2, default 1: the
result is a permutation, pairwise ordered by that key, and any selection of
tickets already pairwise ordered by the key (in particular any class of
key-ties) keeps its original relative order. -/
theorem C2_amended (tickets : List Ticket) :
    List.Perm (sortedTickets tickets) tickets ∧
    (sortedTickets tickets).Pairwise ticketR ∧
    (∀ p : Ticket → Bool, (tickets.filter p).Pairwise ticketR →
      (sortedTickets tickets).filter p = tickets.filter p) :=
  ⟨List.perm_insertionSort ticketR tickets,
   List.sorted_insertionSort ticketR tickets,
   filter_sortedTickets tickets⟩

/-- Claim C2, witness: the stability clause applied to a concrete batch of two
tier-1 tickets. -/
theorem C2_witness :
    (sortedTickets [⟨0, "Task", "T", "", [], none⟩,
        ⟨1, "Story", "S", "", [], none⟩]).filter (fun t => type_order t.type == 1) =
      [⟨0, "Task", "T", "", [], none⟩,
        ⟨1, "Story", "S", "", [], none⟩].filter (fun t => type_order t.type == 1) :=
  (C2_amended [⟨0, "Task", "T", "", [], none⟩, ⟨1, "Story", "S", "", [], none⟩]).2.2
    (fun t => type_order t.type == 1) (by decide)

/-- Claim C3, counterexample: the promotion test is `strip().lower() ==
"epic"` — case-insensitive but separator-SENSITIVE — not the claim's
normalization: an ancestor typed "E-pic" (normalized type Epic, with the
recorded key "K1") does not promote its Subtask child; the child is created
with its original "Subtask" type, parent_key = "K1" and NO epic link, and no
promotion note is appended. -/
theorem C3_counterexample :
    (create_tickets "KAN" (fun n => if n == 0 then some "K1" else some "K2")
      (fun k => k) [⟨0, "E-pic", "P", "", [], none⟩,
        ⟨1, "Subtask", "S", "", [], some 0⟩]).calls.map
      (fun c => (c.issue_type, c.parent_key, c.epic_key)) =
      [("E-pic", none, none), ("Subtask", some "K1", none)] ∧
    (create_tickets "KAN" (fun n => if n == 0 then some "K1" else some "K2")
      (fun k => k) [⟨0, "E-pic", "P", "", [], none⟩,
        ⟨1, "Subtask", "S", "", [], some 0⟩]).errors = [] ∧
    specNormalize "E-pic" = "Epic" ∧ stripLower "E-pic" ≠ "epic" := by
  decide

/-- Claim C3, amended: a Subtask whose first non-subtask ancestor has a type
equal to "epic" after strip-and-lowercase (the code's separator-sensitive
check, narrower than the claim's normalization) and a recorded non-empty key
is sent to the Issue Creator with effective type "Task", that epic key, and no
parent key, and the promotion note is appended before the call (hence it
precedes any failure note of the same iteration). -/
theorem C3_promoted_subtask (project_key : String)
    (creator : Nat → Option String) (urlOf : String → String)
    (tickets : List Ticket) (total : Nat) (st : ExecState) (t : Ticket)
    (p a : Nat) (pt : Ticket) (k : String)
    (hsub : is_subtask_type t.type = true) (hpi : t.parent_index = some p)
    (hfind : find_first_non_subtask_ancestor tickets p = some a)
    (hpt : indexToTicket tickets a = some pt)
    (hepic : stripLower pt.type = "epic")
    (hlook : lookupKey st.indexToKey a = some k) (hk : k ≠ "") :
    (processTicket project_key creator urlOf tickets total st t).calls =
      st.calls ++ [⟨project_key, "Task", t.summary, formatDescription t,
        none, some k⟩] ∧
    (processTicket project_key creator urlOf tickets total st t).errors =
      st.errors ++ ["Promoted subtask to Task under Epic: " ++ t.summary] ++
        (match creator st.calls.length with
         | some _ => []
         | none => ["Failed to create: " ++ t.summary]) := by
  have h := processTicket_promote project_key creator urlOf tickets total st t
    p a pt k hsub hpi hfind hpt hepic hlook hk
  constructor
  · rw [h, doCreate_calls]
  · rw [h, doCreate_errors]

/-- Claim C3, witness: the spec's Scenario C, after the epic has been created
and recorded under key KAN-30. -/
theorem C3_witness :
    (processTicket "KAN" (fun _ => some "KAN-31") (fun k => k)
        [⟨0, "Epic", "Epic A", "", [], none⟩,
          ⟨1, "Subtask", "Subtask A", "", [], some 0⟩] 2
        ⟨[], [], [(0, "KAN-30")], [], []⟩
        ⟨1, "Subtask", "Subtask A", "", [], some 0⟩).calls =
      [⟨"KAN", "Task", "Subtask A", "", none, some "KAN-30"⟩] ∧
    (processTicket "KAN" (fun _ => some "KAN-31") (fun k => k)
        [⟨0, "Epic", "Epic A", "", [], none⟩,
          ⟨1, "Subtask", "Subtask A", "", [], some 0⟩] 2
        ⟨[], [], [(0, "KAN-30")], [], []⟩
        ⟨1, "Subtask", "Subtask A", "", [], some 0⟩).errors =
      ["Promoted subtask to Task under Epic: Subtask A"] := by
  have h := C3_promoted_subtask "KAN" (fun _ => some "KAN-31") (fun k => k)
    [⟨0, "Epic", "Epic A", "", [], none⟩, ⟨1, "Subtask", "Subtask A", "", [], some 0⟩]
    2 ⟨[], [], [(0, "KAN-30")], [], []⟩ ⟨1, "Subtask", "Subtask A", "", [], some 0⟩
    0 0 ⟨0, "Epic", "Epic A", "", [], none⟩ "KAN-30"
    (by decide) rfl (by decide) (by decide) (by decide) rfl (by decide)
  exact h

/-- Claim C4, counterexample: an Epic does NOT ignore its parent_index — an
Epic whose parent_index points at an already-created Epic is created with that
Epic's key as epic_key (the claim requires epic_key = none for every Epic). -/
theorem C4_counterexample :
    (create_tickets "KAN" (fun n => if n == 0 then some "K1" else some "K2")
      (fun k => k) [⟨0, "Epic", "A", "", [], none⟩,
        ⟨1, "Epic", "B", "", [], some 0⟩]).calls.map
      (fun c => (c.issue_type, c.parent_key, c.epic_key)) =
      [("Epic", none, none), ("Epic", none, some "K1")] := by
  decide

/-- Claim C4, amended: every non-subtask ticket (Epics included) is sent with
parent_key = none, and with epic_key equal to the recorded key of its nearest
epic ancestor when parent_index is present and that ancestor is found, else
none — an Epic's parent_index therefore DOES influence its epic_key. -/
theorem C4_amended (project_key : String) (creator : Nat → Option String)
    (urlOf : String → String) (tickets : List Ticket) (total : Nat)
    (st : ExecState) (t : Ticket)
    (hsub : is_subtask_type t.type = false) :
    (processTicket project_key creator urlOf tickets total st t).calls =
      st.calls ++ [⟨project_key, t.type, t.summary, formatDescription t, none,
        (match t.parent_index with
         | none => none
         | some p =>
           (match find_epic_ancestor tickets p with
            | some e => lookupKey st.indexToKey e
            | none => none))⟩] :=
  processTicket_nonsubtask_call project_key creator urlOf tickets total st t hsub

/-- Claim C4, witness: the amended theorem at the Epic-under-created-Epic
configuration. -/
theorem C4_witness :
    (processTicket "KAN" (fun _ => some "K2") (fun k => k)
        [⟨0, "Epic", "A", "", [], none⟩, ⟨1, "Epic", "B", "", [], some 0⟩] 2
        ⟨[], [], [(0, "K1")], [], []⟩ ⟨1, "Epic", "B", "", [], some 0⟩).calls =
      [⟨"KAN", "Epic", "B", "", none, some "K1"⟩] := by
  have h := C4_amended "KAN" (fun _ => some "K2") (fun k => k)
    [⟨0, "Epic", "A", "", [], none⟩, ⟨1, "Epic", "B", "", [], some 0⟩] 2
    ⟨[], [], [(0, "K1")], [], []⟩ ⟨1, "Epic", "B", "", [], some 0⟩ (by decide)
  rw [h]
  decide

/-- Claim C5, counterexample: after deleting position 0 from
[A(idx 0), B(idx 1, parent 0)], the survivor B is renumbered to index 0, so
B's parent_index 0 — the deleted index — resolves to a LIVE ticket (B itself),
not to none as the claim asserts. -/
theorem C5_counterexample :
    delete_and_reindex [⟨0, "Epic", "A", "", [], none⟩,
        ⟨1, "Story", "B", "", [], some 0⟩] 0 =
      [⟨0, "Story", "B", "", [], some 0⟩] ∧
    indexToTicket (delete_and_reindex [⟨0, "Epic", "A", "", [], none⟩,
        ⟨1, "Story", "B", "", [], some 0⟩] 0) 0 =
      some ⟨0, "Story", "B", "", [], some 0⟩ := by
  decide

/-- Claim C5, amended: deleting position i < N renumbers the survivors to the
dense indices 0..N-2 preserving their relative order; afterwards a
parent_index equal to the deleted index i is dangling (resolves to no ticket)
only when i = N-1 — any index below N-1 now resolves to the live survivor
renumbered to it (for index i, the ticket formerly at position i+1). -/
theorem C5_amended (tickets : List Ticket) (i : Nat) (hi : i < tickets.length) :
    (delete_and_reindex tickets i).map (fun t => t.index) =
      List.range (tickets.length - 1) ∧
    (delete_and_reindex tickets i).map (fun t => { t with index := 0 }) =
      (tickets.eraseIdx i).map (fun t => { t with index := 0 }) ∧
    (∀ j, tickets.length - 1 ≤ j →
      indexToTicket (delete_and_reindex tickets i) j = none) ∧
    (∀ j, j < tickets.length - 1 →
      indexToTicket (delete_and_reindex tickets i) j =
        ((tickets.eraseIdx i).get? j).map (fun t => { t with index := j })) := by
  have hlen : (tickets.eraseIdx i).length = tickets.length - 1 :=
    List.length_eraseIdx_of_lt hi
  refine ⟨?_, reindexFrom_strip _ 0, ?_, ?_⟩
  · unfold delete_and_reindex
    rw [reindexFrom_map_index, hlen, List.range_eq_range']
  · intro j hj
    unfold delete_and_reindex
    rw [indexToTicket_reindexFrom, if_neg (by rw [hlen]; omega)]
  · intro j hj
    unfold delete_and_reindex
    rw [indexToTicket_reindexFrom, if_pos (by rw [hlen]; omega), Nat.sub_zero]

/-- Claim C5, witness: deleting the middle ticket of a three-ticket batch. -/
theorem C5_witness :
    (delete_and_reindex [⟨0, "Epic", "A", "", [], none⟩,
        ⟨1, "Story", "B", "", [], none⟩, ⟨2, "Task", "C", "", [], some 1⟩] 1).map
      (fun t => t.index) = List.range 2 ∧
    (∀ j, 2 ≤ j → indexToTicket (delete_and_reindex [⟨0, "Epic", "A", "", [], none⟩,
        ⟨1, "Story", "B", "", [], none⟩, ⟨2, "Task", "C", "", [], some 1⟩] 1) j = none) ∧
    indexToTicket (delete_and_reindex [⟨0, "Epic", "A", "", [], none⟩,
        ⟨1, "Story", "B", "", [], none⟩, ⟨2, "Task", "C", "", [], some 1⟩] 1) 1 =
      some ⟨1, "Task", "C", "", [], some 1⟩ := by
  obtain ⟨h1, h2, h3, h4⟩ := C5_amended [⟨0, "Epic", "A", "", [], none⟩,
    ⟨1, "Story", "B", "", [], none⟩, ⟨2, "Task", "C", "", [], some 1⟩] 1 (by decide)
  refine ⟨h1, fun j hj => h3 j hj, ?_⟩
  rw [h4 1 (by decide)]
  decide

/-- Claim C6: the ancestor walk terminates for every parent graph — any fuel
beyond tickets.length + 1 gives the same chain, the chain repeats no index and
has at most tickets.length + 1 entries — and when no chain entry satisfies the
respective predicate (as with fully cyclic or dangling chains), the derived
lookups first_non_subtask_ancestor and nearest_epic_ancestor return none
rather than failing. -/
theorem C6_walk_terminates (tickets : List Ticket) (start f : Nat)
    (hf : tickets.length + 1 ≤ f) :
    findParentChainAux tickets f [] (some start) = find_parent_chain tickets start ∧
    (find_parent_chain tickets start).Nodup ∧
    (find_parent_chain tickets start).length ≤ tickets.length + 1 ∧
    ((∀ idx ∈ find_parent_chain tickets start,
        (match indexToTicket tickets idx with
         | none => false
         | some t => !(is_subtask_type t.type)) = false) →
      find_first_non_subtask_ancestor tickets start = none) ∧
    ((∀ idx ∈ find_parent_chain tickets start,
        (match indexToTicket tickets idx with
         | none => false
         | some t => stripLower t.type == "epic") = false) →
      find_epic_ancestor tickets start = none) := by
  have hmu : chainFuelNeeded tickets [] (some start) ≤ tickets.length + 1 := by
    rw [chainFuelNeeded_some, if_neg (List.not_mem_nil start)]
    have := remainingNew_le tickets [start]
    omega
  refine ⟨?_, ?_, ?_, ?_, ?_⟩
  · exact findParentChainAux_congr tickets [] (some start) f (tickets.length + 1)
      (le_trans hmu hf) hmu
  · exact findParentChainAux_nodup tickets _ [] (some start) List.nodup_nil
  · have h1 := findParentChainAux_length_le tickets (tickets.length + 1) []
      (some start)
    simp only [List.length_nil, Nat.zero_add] at h1
    exact le_trans h1 hmu
  · intro hall
    unfold find_first_non_subtask_ancestor
    apply List.find?_eq_none.mpr
    intro x hx
    simp [hall x hx]
  · intro hall
    unfold find_epic_ancestor
    apply List.find?_eq_none.mpr
    intro x hx
    simp [hall x hx]

/-- Claim C6, witness: a two-element subtask cycle 0 → 1 → 0: the walk stops,
and both ancestor lookups return none. -/
theorem C6_witness :
    findParentChainAux [⟨0, "Subtask", "A", "", [], some 1⟩,
        ⟨1, "Subtask", "B", "", [], some 0⟩] 7 [] (some 0) =
      find_parent_chain [⟨0, "Subtask", "A", "", [], some 1⟩,
        ⟨1, "Subtask", "B", "", [], some 0⟩] 0 ∧
    (find_parent_chain [⟨0, "Subtask", "A", "", [], some 1⟩,
        ⟨1, "Subtask", "B", "", [], some 0⟩] 0).Nodup ∧
    (find_parent_chain [⟨0, "Subtask", "A", "", [], some 1⟩,
        ⟨1, "Subtask", "B", "", [], some 0⟩] 0).length ≤ 3 ∧
    find_first_non_subtask_ancestor [⟨0, "Subtask", "A", "", [], some 1⟩,
        ⟨1, "Subtask", "B", "", [], some 0⟩] 0 = none ∧
    find_epic_ancestor [⟨0, "Subtask", "A", "", [], some 1⟩,
        ⟨1, "Subtask", "B", "", [], some 0⟩] 0 = none := by
  obtain ⟨h1, h2, h3, h4, h5⟩ := C6_walk_terminates
    [⟨0, "Subtask", "A", "", [], some 1⟩, ⟨1, "Subtask", "B", "", [], some 0⟩]
    0 7 (by decide)
  exact ⟨h1, h2, h3, h4 (by decide), h5 (by decide)⟩

/-- Claim C7, counterexample: when the epic "E" fails to create, its Story
child "S" is NOT skipped — it is created with no epic link (the claim demands
that every descendant of a failed ticket resolve to Skipped). -/
theorem C7_counterexample :
    (create_tickets "KAN" (fun n => if n == 0 then none else some "K2")
      (fun k => k) [⟨0, "Epic", "E", "", [], none⟩,
        ⟨1, "Story", "S", "", [], some 0⟩]).errors = ["Failed to create: E"] ∧
    (create_tickets "KAN" (fun n => if n == 0 then none else some "K2")
      (fun k => k) [⟨0, "Epic", "E", "", [], none⟩,
        ⟨1, "Story", "S", "", [], some 0⟩]).created.map (fun e => e.summary) =
      ["S"] := by
  decide

/-- Claim C7, amended: when the Issue Creator returns no result the executor
appends "Failed to create: summary", records no key and no created entry, and
the fold simply continues; a later SUBTASK whose resolved non-subtask ancestor
has no recorded key is then skipped — but non-subtask descendants are still
created (with the link unset), as the counterexample shows. -/
theorem C7_amended :
    (∀ (project_key : String) (creator : Nat → Option String)
      (urlOf : String → String) (st : ExecState) (t : Ticket)
      (issue_type : String) (parent_key epic_key : Option String),
      creator st.calls.length = none →
      doCreate project_key creator urlOf st t issue_type parent_key epic_key =
        { st with
          calls := st.calls ++ [⟨project_key, issue_type, t.summary,
            formatDescription t, parent_key, epic_key⟩],
          errors := st.errors ++ ["Failed to create: " ++ t.summary] }) ∧
    (∀ (project_key : String) (creator : Nat → Option String)
      (urlOf : String → String) (tickets : List Ticket) (total : Nat)
      (st : ExecState) (t : Ticket) (p a : Nat),
      is_subtask_type t.type = true → t.parent_index = some p →
      find_first_non_subtask_ancestor tickets p = some a →
      lookupKey st.indexToKey a = none →
      processTicket project_key creator urlOf tickets total st t =
        { st with
          progress := st.progress ++ [(st.created.length + 1, total, t.summary)],
          errors := st.errors ++
            ["Skipped subtask (missing parent): " ++ t.summary] }) :=
  ⟨doCreate_failure, processTicket_skip_nokey⟩

/-- Claim C7, witness: the failing creation of "E" and the skip of a Subtask
whose ancestor never got a key. -/
theorem C7_witness :
    doCreate "KAN" (fun _ => none) (fun k => k) initState
        ⟨0, "Epic", "E", "", [], none⟩ "Epic" none none =
      { initState with
        calls := [⟨"KAN", "Epic", "E", "", none, none⟩],
        errors := ["Failed to create: E"] } ∧
    processTicket "KAN" (fun _ => none) (fun k => k)
        [⟨0, "Epic", "E", "", [], none⟩, ⟨1, "Subtask", "S", "", [], some 0⟩] 2
        initState ⟨1, "Subtask", "S", "", [], some 0⟩ =
      { initState with
        progress := [(1, 2, "S")],
        errors := ["Skipped subtask (missing parent): S"] } :=
  ⟨C7_amended.1 "KAN" (fun _ => none) (fun k => k) initState
      ⟨0, "Epic", "E", "", [], none⟩ "Epic" none none rfl,
   C7_amended.2 "KAN" (fun _ => none) (fun k => k)
      [⟨0, "Epic", "E", "", [], none⟩, ⟨1, "Subtask", "S", "", [], some 0⟩] 2
      initState ⟨1, "Subtask", "S", "", [], some 0⟩ 0 0
      (by decide) rfl (by decide) rfl⟩

/-- Claim C8, counterexample: the code emits one bullet for EVERY criterion,
including empty strings — with acceptance_criteria = [""] the sent description
carries a bare bullet, while the claim's one-bullet-per-NON-EMPTY-criterion
format would carry none. -/
theorem C8_counterexample :
    formatDescription ⟨0, "Task", "T", "D", [""], none⟩ =
      "D\n\nAcceptance Criteria:\n• \n" ∧
    specDescription ⟨0, "Task", "T", "D", [""], none⟩ =
      "D\n\nAcceptance Criteria:\n" ∧
    formatDescription ⟨0, "Task", "T", "D", [""], none⟩ ≠
      specDescription ⟨0, "Task", "T", "D", [""], none⟩ := by
  decide

/-- Claim C8, amended: every Issue-Creator call carries the ticket's
description followed, when the acceptance-criteria list is non-empty, by the
header and one bullet per criterion — empty criteria included; the trailing
block is omitted entirely only when the list is empty. -/
theorem C8_amended :
    (∀ t : Ticket, formatDescription t = t.description ++
      (if t.acceptance_criteria.isEmpty then "" else
        "\n\nAcceptance Criteria:\n" ++
          String.join (t.acceptance_criteria.map (fun ac => "• " ++ ac ++ "\n")))) ∧
    (∀ (project_key : String) (creator : Nat → Option String)
      (urlOf : String → String) (tickets : List Ticket) (total : Nat)
      (st : ExecState) (t : Ticket) (c : CreateCall),
      c ∈ (processTicket project_key creator urlOf tickets total st t).calls →
        c ∈ st.calls ∨ c.description = formatDescription t) :=
  ⟨formatDescription_eq, processTicket_calls_mem⟩

/-- Claim C8, witness: the call made for a ticket with an empty-string
criterion carries the bulleted description. -/
theorem C8_witness :
    (⟨"KAN", "Task", "T", "D\n\nAcceptance Criteria:\n• \n", none, none⟩ :
        CreateCall) ∈ initState.calls ∨
      (⟨"KAN", "Task", "T", "D\n\nAcceptance Criteria:\n• \n", none, none⟩ :
        CreateCall).description = formatDescription ⟨0, "Task", "T", "D", [""], none⟩ :=
  C8_amended.2 "KAN" (fun _ => some "K") (fun k => k)
    [⟨0, "Task", "T", "D", [""], none⟩] 1 initState
    ⟨0, "Task", "T", "D", [""], none⟩
    ⟨"KAN", "Task", "T", "D\n\nAcceptance Criteria:\n• \n", none, none⟩
    (by decide)

/-- Claim C9, counterexample: the reported position is the created-so-far
count plus one, not the position in the planned order — after two skipped
subtasks the observer hears positions [1, 1], not [1, 2] as the claim
requires. -/
theorem C9_counterexample :
    (create_tickets "KAN" (fun _ => none) (fun k => k)
      [⟨0, "Subtask", "A", "", [], some 99⟩,
        ⟨1, "Subtask", "B", "", [], some 99⟩]).progress =
      [(1, 2, "A"), (1, 2, "B")] ∧
    (create_tickets "KAN" (fun _ => none) (fun k => k)
      [⟨0, "Subtask", "A", "", [], some 99⟩,
        ⟨1, "Subtask", "B", "", [], some 99⟩]).progress.map
      (fun x => x.1) ≠ [1, 2] := by
  decide

/-- Claim C9, amended: before each ticket's resolution the executor notifies
the observer exactly once with (number of tickets created so far + 1, batch
total, summary): over a run there is exactly one notification per ticket,
reporting the batch total and the summaries in planned order, but the position
equals created-so-far + 1 (so it repeats after a Skip or a Failure). -/
theorem C9_amended :
    (∀ (project_key : String) (creator : Nat → Option String)
      (urlOf : String → String) (tickets : List Ticket) (total : Nat)
      (st : ExecState) (t : Ticket),
      (processTicket project_key creator urlOf tickets total st t).progress =
        st.progress ++ [(st.created.length + 1, total, t.summary)]) ∧
    (∀ (project_key : String) (creator : Nat → Option String)
      (urlOf : String → String) (tickets : List Ticket),
      (create_tickets project_key creator urlOf tickets).progress.length =
        tickets.length) ∧
    (∀ (project_key : String) (creator : Nat → Option String)
      (urlOf : String → String) (tickets : List Ticket),
      (create_tickets project_key creator urlOf tickets).progress.map
          (fun x => (x.2.1, x.2.2)) =
        (sortedTickets tickets).map (fun t => (tickets.length, t.summary))) := by
  refine ⟨processTicket_progress, ?_, ?_⟩
  · intro project_key creator urlOf tickets
    unfold create_tickets
    rw [foldl_processTicket_progress_length]
    show (0 : Nat) + (sortedTickets tickets).length = tickets.length
    rw [Nat.zero_add]
    exact List.length_insertionSort ticketR tickets
  · intro project_key creator urlOf tickets
    unfold create_tickets
    rw [foldl_processTicket_progress_shape]
    rfl

/-- Claim C10: every entry of the Created list records the ticket's ORIGINAL
free-text type (together with its summary and original index), not the
effective type sent downstream: in the promotion scenario the created entries
read ["Epic", "Subtask"] while the remote calls were issued as
["Epic", "Task"]. -/
theorem C10_created_entry_type :
    (∀ (project_key : String) (creator : Nat → Option String)
      (urlOf : String → String) (tickets : List Ticket) (total : Nat)
      (st : ExecState) (t : Ticket) (e : CreatedEntry),
      e ∈ (processTicket project_key creator urlOf tickets total st t).created →
        e ∈ st.created ∨
          (e.type = t.type ∧ e.summary = t.summary ∧
            e.original_index = t.index)) ∧
    (create_tickets "KAN" (fun n => if n == 0 then some "KAN-30" else some "KAN-31")
      (fun k => k) [⟨0, "Epic", "Epic A", "", [], none⟩,
        ⟨1, "Subtask", "Subtask A", "", [], some 0⟩]).created.map
      (fun e => e.type) = ["Epic", "Subtask"] ∧
    (create_tickets "KAN" (fun n => if n == 0 then some "KAN-30" else some "KAN-31")
      (fun k => k) [⟨0, "Epic", "Epic A", "", [], none⟩,
        ⟨1, "Subtask", "Subtask A", "", [], some 0⟩]).calls.map
      (fun c => c.issue_type) = ["Epic", "Task"] :=
  ⟨processTicket_created_mem, by decide, by decide⟩

/-- Claim C10, witness: the promoted subtask's created entry keeps the
original "Subtask" label. -/
theorem C10_witness :
    (⟨"KAN-31", "Subtask", "Subtask A", "KAN-31", 1⟩ : CreatedEntry) ∈
        (⟨[], [], [(0, "KAN-30")], [], []⟩ : ExecState).created ∨
      ((⟨"KAN-31", "Subtask", "Subtask A", "KAN-31", 1⟩ : CreatedEntry).type =
          "Subtask" ∧
        (⟨"KAN-31", "Subtask", "Subtask A", "KAN-31", 1⟩ : CreatedEntry).summary =
          "Subtask A" ∧
        (⟨"KAN-31", "Subtask", "Subtask A", "KAN-31", 1⟩ : CreatedEntry).original_index =
          1) :=
  C10_created_entry_type.1 "KAN" (fun _ => some "KAN-31") (fun k => k)
    [⟨0, "Epic", "Epic A", "", [], none⟩, ⟨1, "Subtask", "Subtask A", "", [], some 0⟩]
    2 ⟨[], [], [(0, "KAN-30")], [], []⟩ ⟨1, "Subtask", "Subtask A", "", [], some 0⟩
    ⟨"KAN-31", "Subtask", "Subtask A", "KAN-31", 1⟩ (by decide)
